import Mathlib

set_option maxRecDepth 4000

namespace ManagementTools

/-!
Shallow embedding of the paginated-search / session-management Jira client of
this repository (`management_tools/client/jira.py`, with the synchronous
variant `connectors/jira.py` where noted).  Python integers are modelled as
`Int`, JSON dictionaries as structures with `Option` fields (a `none` field
models a missing key), and the `async` generator as an explicit fuel-indexed
loop that records the page requests it issues.
-/

/-- A search page response, as read by `Client.search`.  The code accesses
`tasks['total']`, `tasks['startAt']`, `tasks['maxResults']` (each a `KeyError`
when missing, modelled by `none`) and `tasks.get('issues', [])` (never a
`KeyError`).  Issues are opaque JSON objects; we identify them by `Int` ids.
The claims only concern integer-valued fields, so the `int(...)` conversions
are the identity here. -/
structure PageResponse where
  total      : Option Int
  startAt    : Option Int
  maxResults : Option Int
  issues     : Option (List Int)
deriving DecidableEq

/-- How a `search` run ends: `finished` models the `while start_at < total`
loop exiting normally, `keyError` models the `except KeyError` handler firing
(the error is logged, nothing is raised to the caller), and `fuelOut` is the
model artifact for runs that exhaust the supplied fuel. -/
inductive SearchOutcome where
  | finished
  | fuelOut
  | keyError
deriving DecidableEq

/-- Observable behaviour of one `search` call: the transformed issues yielded
(in order), the `(startAt, maxResults)` of every `_search` page request issued
(in order), and how the run ended. -/
structure SearchRun where
  yields  : List Int
  reqs    : List (Int × Int)
  outcome : SearchOutcome
deriving DecidableEq

/-- The `while start_at < total` loop of `Client.search`
(`management_tools/client/jira.py` lines 159-171).  Per iteration, faithful to
the source order: yield `transform(task)` for every task in
`tasks.get('issues', [])`, then `start_at += max_results + 1`, then fetch the
next page with `_search(jql, start_at=start_at, max_results=max_results)`.
`total` and `mr` are the values read once from the first response; `tasks` is
the page fetched by the previous step.  `server a b` is the backing server's
response to a page request with `startAt = a`, `maxResults = b`. -/
def searchLoop (server : Int → Int → PageResponse) (tf : Int → Int)
    (total mr : Int) : Nat → Int → PageResponse → SearchRun
  | 0, s, _ =>
    if s < total then ⟨[], [], .fuelOut⟩ else ⟨[], [], .finished⟩
  | fuel + 1, s, tasks =>
    if s < total then
      let rest := searchLoop server tf total mr fuel (s + mr + 1)
        (server (s + mr + 1) mr)
      ⟨(tasks.issues.getD []).map tf ++ rest.yields,
       (s + mr + 1, mr) :: rest.reqs, rest.outcome⟩
    else ⟨[], [], .finished⟩

/-- `Client.search` (`management_tools/client/jira.py` lines 147-173): issue
the first page request with the `_search` defaults `start_at=0,
max_results=1000`, read `total`/`startAt`/`maxResults` from that response
(a missing one raises `KeyError`, caught and logged by the handler at line
172), then run the loop.  Note that only the first response's header fields
are ever read. -/
def search (server : Int → Int → PageResponse) (tf : Int → Int)
    (fuel : Nat) : SearchRun :=
  let tasks := server 0 1000
  match tasks.total, tasks.startAt, tasks.maxResults with
  | some total, some s, some mr =>
    let rest := searchLoop server tf total mr fuel s tasks
    ⟨rest.yields, (0, 1000) :: rest.reqs, rest.outcome⟩
  | _, _, _ => ⟨[], [(0, 1000)], .keyError⟩

/-- The issues a faithful backing store with `total` issues (ids `0..total-1`)
returns for a page request at `startAt` with page size `pageSize`: the slice
`[startAt, startAt + pageSize)` of the store. -/
def issueSlice (total pageSize : Nat) (startAt : Int) : List Int :=
  (((List.range total).map (fun (i : Nat) => (i : Int))).drop startAt.toNat).take pageSize

/-- A well-formed backing server holding `total` issues and answering every
page request with page size `pageSize` (reporting that size back in
`maxResults`, echoing the requested `startAt`, as in the spec's fixtures). -/
def pageServer (total pageSize : Nat) : Int → Int → PageResponse :=
  fun s _ =>
    ⟨some (total : Int), some s, some (pageSize : Int),
     some (issueSlice total pageSize s)⟩

/-- A server whose page at `startAt = 2` is malformed (all four keys missing)
while the others form a well-formed 6-issue store with page size 1. -/
def malformedMidServer : Int → Int → PageResponse := fun s _ =>
  if s = 2 then ⟨none, none, none, none⟩
  else ⟨some 6, some s, some 1, some (issueSlice 6 1 s)⟩

/-- A server whose (well-formed) first response reports `maxResults = -1`,
making the loop step `start_at += max_results + 1` a no-op. -/
def stuckServer : Int → Int → PageResponse := fun _ _ =>
  ⟨some 1, some 0, some (-1), some []⟩

/-- A server whose (well-formed) first response reports `startAt = 7` with
`total = 1`, so the loop guard `start_at < total` fails immediately. -/
def lateStartServer : Int → Int → PageResponse := fun _ _ =>
  ⟨some 1, some 7, some 1, some []⟩

/-- `server` with the `issues` key removed from every response. -/
def eraseIssues (server : Int → Int → PageResponse) :
    Int → Int → PageResponse :=
  fun a b => { server a b with issues := none }

/-- The `(startAt, maxResults)` pairs of the loop's page requests starting
from cursor `s` with page size `mr`: the arithmetic progression
`s + (mr+1)*1, s + (mr+1)*2, ...` of length `k`. -/
def pageReqs (s mr : Int) (k : Nat) : List (Int × Int) :=
  (List.range k).map (fun (i : Nat) => (s + (mr + 1) * ((i : Int) + 1), mr))

/-- Number of issues yielded, computed at the `Nat` level for a faithful
`pageServer total pageSize` backing store: each entered iteration contributes
`min pageSize (total - s)` issues and advances the cursor by `pageSize + 1`. -/
def yieldsCount (total pageSize : Nat) : Nat → Nat → Nat
  | 0, _ => 0
  | fuel + 1, s =>
    if s < total then
      min pageSize (total - s) + yieldsCount total pageSize fuel (s + pageSize + 1)
    else 0

theorem pageReqs_succ (s mr : Int) (k : Nat) :
    pageReqs s mr (k + 1) = (s + mr + 1, mr) :: pageReqs (s + mr + 1) mr k := by
  unfold pageReqs
  rw [List.range_succ_eq_map, List.map_cons, List.map_map]
  refine List.cons_eq_cons.mpr ⟨?_, ?_⟩
  · simp [Prod.ext_iff]; ring
  · refine List.map_congr_left ?_
    intro i _
    simp [Function.comp, Prod.ext_iff]
    ring

/-- The requests issued and the outcome of the loop do not depend on the
transform, on the current page in hand, nor on any server response. -/
theorem searchLoop_reqs_outcome (sA sB : Int → Int → PageResponse)
    (tfA tfB : Int → Int) (total mr : Int) :
    ∀ (fuel : Nat) (s : Int) (tA tB : PageResponse),
      (searchLoop sA tfA total mr fuel s tA).reqs
        = (searchLoop sB tfB total mr fuel s tB).reqs
      ∧ (searchLoop sA tfA total mr fuel s tA).outcome
        = (searchLoop sB tfB total mr fuel s tB).outcome
  | 0, s, tA, tB => by by_cases h : s < total <;> simp [searchLoop, h]
  | fuel + 1, s, tA, tB => by
    by_cases h : s < total
    · have ih := searchLoop_reqs_outcome sA sB tfA tfB total mr fuel
        (s + mr + 1) (sA (s + mr + 1) mr) (sB (s + mr + 1) mr)
      simp [searchLoop, h, ih.1, ih.2]
    · simp [searchLoop, h]

/-- The loop never produces `keyError`: the `except KeyError` handler can only
be triggered while reading the first response's header fields. -/
theorem searchLoop_outcome_ne_keyError (server : Int → Int → PageResponse)
    (tf : Int → Int) (total mr : Int) :
    ∀ (fuel : Nat) (s : Int) (tasks : PageResponse),
      (searchLoop server tf total mr fuel s tasks).outcome ≠ .keyError
  | 0, s, tasks => by by_cases h : s < total <;> simp [searchLoop, h]
  | fuel + 1, s, tasks => by
    by_cases h : s < total
    · have ih := searchLoop_outcome_ne_keyError server tf total mr fuel
        (s + mr + 1) (server (s + mr + 1) mr)
      simpa [searchLoop, h] using ih
    · simp [searchLoop, h]

/-- Against a server all of whose responses lack the `issues` key, the loop
yields nothing (`tasks.get('issues', [])` defaults to the empty list). -/
theorem searchLoop_noIssues (server : Int → Int → PageResponse)
    (tf : Int → Int) (total mr : Int) :
    ∀ (fuel : Nat) (s : Int) (tasks : PageResponse), tasks.issues = none →
      (searchLoop (eraseIssues server) tf total mr fuel s tasks).yields = []
  | 0, s, tasks, h => by by_cases hs : s < total <;> simp [searchLoop, hs]
  | fuel + 1, s, tasks, h => by
    by_cases hs : s < total
    · have ih := searchLoop_noIssues server tf total mr fuel
        (s + mr + 1) (eraseIssues server (s + mr + 1) mr) (by simp [eraseIssues])
      simp [searchLoop, hs, h, ih]
    · simp [searchLoop, hs]

/-- Two servers agreeing on every request with `startAt < total` drive the
loop identically: the one request whose `startAt` is at or past `total` is
still issued, but its response is never inspected. -/
theorem searchLoop_agree (sA sB : Int → Int → PageResponse) (tf : Int → Int)
    (total mr : Int) (hag : ∀ a b, a < total → sB a b = sA a b) :
    ∀ (fuel : Nat) (s : Int) (tA tB : PageResponse), (s < total → tB = tA) →
      searchLoop sB tf total mr fuel s tB = searchLoop sA tf total mr fuel s tA
  | 0, s, tA, tB, ht => by by_cases h : s < total <;> simp [searchLoop, h]
  | fuel + 1, s, tA, tB, ht => by
    by_cases h : s < total
    · have htB := ht h
      have ih := searchLoop_agree sA sB tf total mr hag fuel (s + mr + 1)
        (sA (s + mr + 1) mr) (sB (s + mr + 1) mr)
        (fun h2 => hag (s + mr + 1) mr h2)
      simp [searchLoop, h, htB, ih]
    · simp [searchLoop, h]

/-- Full characterization of the loop when the page-size step is nonnegative
and the fuel covers the remaining distance: it finishes, issues the
progression of page requests `pageReqs s mr k`, every entered iteration had
cursor below `total`, and the final cursor is at or past `total`. -/
theorem searchLoop_run (server : Int → Int → PageResponse) (tf : Int → Int)
    (total mr : Int) (hm : 0 ≤ mr) :
    ∀ (fuel : Nat) (s : Int) (tasks : PageResponse),
      (total - s).toNat ≤ fuel →
      ∃ k : Nat,
        (searchLoop server tf total mr fuel s tasks).outcome = .finished
        ∧ (searchLoop server tf total mr fuel s tasks).reqs = pageReqs s mr k
        ∧ (∀ i : Nat, i < k → s + (mr + 1) * (i : Int) < total)
        ∧ total ≤ s + (mr + 1) * (k : Int)
  | 0, s, tasks, hfuel => by
    have hs : ¬ s < total := by omega
    refine ⟨0, ?_, ?_, ?_, ?_⟩ <;> simp [searchLoop, hs, pageReqs] <;> omega
  | fuel + 1, s, tasks, hfuel => by
    by_cases h : s < total
    · obtain ⟨k, h1, h2, h3, h4⟩ := searchLoop_run server tf total mr hm fuel
        (s + mr + 1) (server (s + mr + 1) mr) (by omega)
      refine ⟨k + 1, ?_, ?_, ?_, ?_⟩
      · simp [searchLoop, h, h1]
      · simp [searchLoop, h, h2, pageReqs_succ]
      · intro i hi
        match i with
        | 0 => simpa using h
        | j + 1 =>
          have := h3 j (by omega)
          push_cast
          push_cast at this
          linarith
      · have : total ≤ s + mr + 1 + (mr + 1) * (k : Int) := h4
        push_cast
        linarith
    · refine ⟨0, ?_, ?_, ?_, ?_⟩ <;> simp [searchLoop, h, pageReqs] <;> omega

/-- Bridge to the `Nat`-level count: running the loop against the faithful
`pageServer total pageSize`, the number of yielded issues is `yieldsCount`. -/
theorem pageServer_yields_length (T M : Nat) (tf : Int → Int) :
    ∀ (fuel : Nat) (s : Nat) (r : Int),
      (searchLoop (pageServer T M) tf (T : Int) (M : Int) fuel (s : Int)
        (pageServer T M (s : Int) r)).yields.length = yieldsCount T M fuel s
  | 0, s, r => by
    by_cases h : (s : Int) < (T : Int) <;> simp [searchLoop, h, yieldsCount]
  | fuel + 1, s, r => by
    by_cases h : s < T
    · have hc : (s : Int) < (T : Int) := by exact_mod_cast h
      have hcast : ((s + M + 1 : Nat) : Int) = (s : Int) + (M : Int) + 1 := by
        push_cast; ring
      have ih := pageServer_yields_length T M tf fuel (s + M + 1) (M : Int)
      rw [hcast] at ih
      simp only [pageServer] at ih
      simp only [searchLoop, hc, if_true, pageServer, yieldsCount, h,
        List.length_append, ih]
      simp [issueSlice, List.length_take, List.length_drop]
    · have hc : ¬ (s : Int) < (T : Int) := by exact_mod_cast h
      simp [searchLoop, hc, yieldsCount, h]

/-- Closed form for the yielded count: starting `d = total - s` issues short,
the run yields `d - d / (pageSize + 1)` issues — one issue is skipped at every
page boundary, `d / (pageSize + 1)` of them in all. -/
theorem yieldsCount_eq (T M : Nat) (hM : 1 ≤ M) :
    ∀ (fuel s : Nat), T - s ≤ fuel →
      yieldsCount T M fuel s = (T - s) - (T - s) / (M + 1)
  | 0, s, hfuel => by
    have h : T - s = 0 := by omega
    simp [yieldsCount, h]
  | fuel + 1, s, hfuel => by
    by_cases h : s < T
    · have ih := yieldsCount_eq T M hM fuel (s + M + 1) (by omega)
      simp only [yieldsCount, h, if_true, ih]
      rcases le_or_lt (T - s) M with hle | hgt
      · have he : T - (s + M + 1) = 0 := by omega
        have hdiv : (T - s) / (M + 1) = 0 := Nat.div_eq_of_lt (by omega)
        simp [he, hdiv]
        omega
      · have he : T - s = (T - (s + M + 1)) + (M + 1) := by omega
        rw [min_eq_left (by omega), he, Nat.add_div_right _ (by omega)]
        have := Nat.div_le_self (T - (s + M + 1)) (M + 1)
        omega
    · have h0 : T - s = 0 := by omega
      simp [yieldsCount, h, h0]

/-- Claim C1, counterexample: with page size `maxResults = 1` dividing
`total = 2` and every backing page well-formed (the faithful two-issue
store), the iterator yields 1 issue, not `total = 2` — the `+1` cursor step
skips the issue at index 1. -/
theorem C1_counterexample :
    (1 ≤ 1 ∧ 1 ∣ 2)
    ∧ search (pageServer 2 1) (fun i => i) 10 =
        ⟨[0], [(0, 1000), (2, 1)], .finished⟩
    ∧ (search (pageServer 2 1) (fun i => i) 10).yields.length ≠ 2 := by
  decide

/-- Claim C1, amended: for every page size `maxResults = M ≥ 1` and total
`T` that `M` evenly divides, against well-formed backing pages the iterator
yields exactly `T - T / (M + 1)` transformed issues (one issue is lost at
each of the `T / (M + 1)` page boundaries crossed by the
`start_at += max_results + 1` step), not `T`. -/
theorem C1_amended (T M : Nat) (tf : Int → Int) (fuel : Nat)
    (hM : 1 ≤ M) (hdvd : M ∣ T) (hfuel : T ≤ fuel) :
    (search (pageServer T M) tf fuel).yields.length = T - T / (M + 1) := by
  have hb := pageServer_yields_length T M tf fuel 0 1000
  have hc := yieldsCount_eq T M hM fuel 0 (by omega)
  simp only [Nat.cast_zero] at hb
  simp only [pageServer] at hb
  simp only [search, pageServer]
  rw [hb, hc]
  simp

/-- Witness for `C1_amended` at `T = 4`, `M = 2`, fuel 4. -/
theorem C1_witness :
    1 ≤ 2 ∧ 2 ∣ 4 ∧ 4 ≤ 4
    ∧ (search (pageServer 4 2) (fun i => i) 4).yields.length = 4 - 4 / (2 + 1) :=
  ⟨by decide, by decide, by decide,
    C1_amended 4 2 (fun i => i) 4 (by decide) (by decide) (by decide)⟩

/-- Claim C6: against the two-page fixture (`total = 2`, `maxResults = 1`),
`search` issues exactly the page requests `startAt = 0` (the initial request,
with the default `max_results = 1000`) and then `startAt = 2`, and the
transform is applied to every yielded issue. -/
theorem C6_theorem :
    ∀ tf : Int → Int,
      search (pageServer 2 1) tf 10 = ⟨[tf 0], [(0, 1000), (2, 1)], .finished⟩ :=
  fun _ => rfl

/-- Claim C7, counterexample: the page at `startAt = 2` is malformed (all of
`total`, `startAt`, `maxResults`, `issues` missing), yet iteration does not
end there: the pages at `startAt = 4` and `6` are still requested and issue
`4` is still yielded after the malformed page. -/
theorem C7_counterexample :
    malformedMidServer 2 1 = ⟨none, none, none, none⟩
    ∧ search malformedMidServer (fun i => i) 10 =
        ⟨[0, 4], [(0, 1000), (2, 1), (4, 1), (6, 1)], .finished⟩
    ∧ (search malformedMidServer (fun i => i) 10).yields ≠ [0] := by
  decide

/-- Claim C7, amended: (1) only a FIRST page response missing `total`,
`startAt` or `maxResults` ends the iteration early, as a logged data error
with nothing yielded and no exception to the caller; (2) once the first
page's header fields are present, no later malformation can trigger the
error path; (3) pages missing the `issues` key (first or later) merely
contribute no items — the same page requests are issued and the run ends the
same way, so prior yields are kept and nothing is raised mid-stream. -/
theorem C7_amended :
    (∀ (server : Int → Int → PageResponse) (tf : Int → Int) (fuel : Nat),
      ((server 0 1000).total = none ∨ (server 0 1000).startAt = none
        ∨ (server 0 1000).maxResults = none) →
      search server tf fuel = ⟨[], [(0, 1000)], .keyError⟩)
    ∧ (∀ (server : Int → Int → PageResponse) (tf : Int → Int) (fuel : Nat)
        (T s m : Int),
        (server 0 1000).total = some T → (server 0 1000).startAt = some s →
        (server 0 1000).maxResults = some m →
        (search server tf fuel).outcome ≠ .keyError)
    ∧ (∀ (server : Int → Int → PageResponse) (tf : Int → Int) (fuel : Nat),
        (search (eraseIssues server) tf fuel).yields = []
        ∧ (search (eraseIssues server) tf fuel).reqs
            = (search server tf fuel).reqs
        ∧ (search (eraseIssues server) tf fuel).outcome
            = (search server tf fuel).outcome) := by
  refine ⟨?_, ?_, ?_⟩
  · intro server tf fuel h
    rcases hsv : server 0 1000 with ⟨t, s, m, i⟩
    rw [hsv] at h
    rcases t with _ | tv <;> rcases s with _ | sv <;> rcases m with _ | mv <;>
      simp_all [search]
  · intro server tf fuel T s m h1 h2 h3
    simp only [search, h1, h2, h3]
    exact searchLoop_outcome_ne_keyError server tf T m fuel s (server 0 1000)
  · intro server tf fuel
    rcases hsv : server 0 1000 with ⟨t, s, m, i⟩
    have he : eraseIssues server 0 1000 = ⟨t, s, m, none⟩ := by
      simp [eraseIssues, hsv]
    rcases t with _ | tv
    · simp [search, hsv, he]
    · rcases s with _ | sv
      · simp [search, hsv, he]
      · rcases m with _ | mv
        · simp [search, hsv, he]
        · have hy := searchLoop_noIssues server tf tv mv fuel sv
            ⟨some tv, some sv, some mv, none⟩ rfl
          have hro := searchLoop_reqs_outcome (eraseIssues server) server tf tf
            tv mv fuel sv ⟨some tv, some sv, some mv, none⟩
            ⟨some tv, some sv, some mv, i⟩
          simp [search, hsv, he, hy, hro.1, hro.2]

/-- Witness for `C7_amended`: part (1) at a server whose first response lacks
`total`, and part (2) at the well-formed two-issue fixture. -/
theorem C7_witness :
    search (fun _ _ => ⟨none, some 0, some 1, some []⟩) (fun i => i) 5 =
      ⟨[], [(0, 1000)], .keyError⟩
    ∧ (search (pageServer 2 1) (fun i => i) 5).outcome ≠ .keyError :=
  ⟨C7_amended.1 (fun _ _ => ⟨none, some 0, some 1, some []⟩) (fun i => i) 5
      (Or.inl rfl),
   C7_amended.2.1 (pageServer 2 1) (fun i => i) 5 2 0 1 rfl rfl rfl⟩

/-- Claim C9, counterexample: a well-formed first response (all of `total`,
`startAt`, `maxResults` present and integer-valued) with `maxResults = -1`
makes the step `start_at += max_results + 1` a no-op: the loop re-requests
`startAt = 0` forever (shown here for 3 fuel steps) — `startAt` does not
strictly advance and the iteration never terminates. -/
theorem C9_counterexample :
    stuckServer 0 1000 = ⟨some 1, some 0, some (-1), some []⟩
    ∧ search stuckServer (fun i => i) 3 =
        ⟨[], [(0, 1000), (0, -1), (0, -1), (0, -1)], .fuelOut⟩ := by
  decide

/-- Claim C9, amended: when the first response is well-formed AND its
`maxResults` is nonnegative, the iteration is finite — it finishes within
`total - startAt` steps — the loop's page-request cursor strictly advances by
`maxResults + 1` each step (the progression `pageReqs`), every entered
iteration had cursor `< total`, and the loop stops at the first cursor
`≥ total`. -/
theorem C9_amended (server : Int → Int → PageResponse) (tf : Int → Int)
    (T s m : Int) (fuel : Nat)
    (h1 : (server 0 1000).total = some T)
    (h2 : (server 0 1000).startAt = some s)
    (h3 : (server 0 1000).maxResults = some m)
    (hm : 0 ≤ m) (hfuel : (T - s).toNat ≤ fuel) :
    (search server tf fuel).outcome = .finished
    ∧ ∃ k : Nat,
        (search server tf fuel).reqs = (0, 1000) :: pageReqs s m k
        ∧ (∀ i : Nat, i < k → s + (m + 1) * (i : Int) < T)
        ∧ T ≤ s + (m + 1) * (k : Int) := by
  obtain ⟨k, ho, hr, hlt, hge⟩ :=
    searchLoop_run server tf T m hm fuel s (server 0 1000) hfuel
  simp only [search, h1, h2, h3]
  exact ⟨ho, k, by simp [hr], hlt, hge⟩

/-- Witness for `C9_amended` at the two-page fixture. -/
theorem C9_witness :
    (search (pageServer 2 1) (fun i => i) 2).outcome = .finished
    ∧ ∃ k : Nat,
        (search (pageServer 2 1) (fun i => i) 2).reqs = (0, 1000) :: pageReqs 0 1 k
        ∧ (∀ i : Nat, i < k → 0 + (1 + 1) * (i : Int) < 2)
        ∧ 2 ≤ 0 + (1 + 1) * (k : Int) :=
  C9_amended (pageServer 2 1) (fun i => i) 2 0 1 2 rfl rfl rfl
    (by decide) (by decide)

/-- Claim C10, counterexample: a well-formed first response with
`total = 1 > 0` but `startAt = 7 ≥ total` makes the loop guard fail at once:
`search` issues exactly one page request, not at least two. -/
theorem C10_counterexample :
    lateStartServer 0 1000 = ⟨some 1, some 7, some 1, some []⟩
    ∧ (0 : Int) < 1
    ∧ search lateStartServer (fun i => i) 10 = ⟨[], [(0, 1000)], .finished⟩
    ∧ (search lateStartServer (fun i => i) 10).reqs.length = 1 := by
  decide

/-- Claim C10, amended: when the first response is well-formed with
`0 < total`, reports `startAt < total` and a nonnegative `maxResults`, then
(k ≥ 1) at least two page requests are issued; the request sequence is
determined solely by the first response's `total`/`startAt`/`maxResults`
(any server and transform agreeing on those three fields issues the same
requests — in particular the header fields of every later response are
ignored); and changing the backing server's response at the final request's
`startAt` (which is `≥ total`) does not change the run at all: the issues of
the final page are never yielded. -/
theorem C10_amended (server : Int → Int → PageResponse) (tf : Int → Int)
    (T s m : Int) (fuel : Nat)
    (h1 : (server 0 1000).total = some T)
    (h2 : (server 0 1000).startAt = some s)
    (h3 : (server 0 1000).maxResults = some m)
    (hT : 0 < T) (hs : s < T) (hm : 0 ≤ m) (hfuel : (T - s).toNat ≤ fuel) :
    ∃ k : Nat, 1 ≤ k
      ∧ (search server tf fuel).reqs = (0, 1000) :: pageReqs s m k
      ∧ (∀ (server2 : Int → Int → PageResponse) (tf2 : Int → Int),
          (server2 0 1000).total = some T → (server2 0 1000).startAt = some s →
          (server2 0 1000).maxResults = some m →
          (search server2 tf2 fuel).reqs = (search server tf fuel).reqs)
      ∧ (∀ server2 : Int → Int → PageResponse,
          (∀ a b : Int, a ≠ s + (m + 1) * (k : Int) → server2 a b = server a b) →
          search server2 tf fuel = search server tf fuel) := by
  obtain ⟨k, ho, hr, hlt, hge⟩ :=
    searchLoop_run server tf T m hm fuel s (server 0 1000) hfuel
  have hk : 1 ≤ k := by
    rcases Nat.eq_zero_or_pos k with hk0 | hk1
    · subst hk0
      simp only [Nat.cast_zero, mul_zero, add_zero] at hge
      omega
    · exact hk1
  refine ⟨k, hk, ?_, ?_, ?_⟩
  · simp only [search, h1, h2, h3]
    simp [hr]
  · intro server2 tf2 g1 g2 g3
    have hro := searchLoop_reqs_outcome server2 server tf2 tf T m fuel s
      (server2 0 1000) (server 0 1000)
    simp only [search, h1, h2, h3, g1, g2, g3]
    simp [hro.1]
  · intro server2 hag
    have hagT : ∀ a b : Int, a < T → server2 a b = server a b := by
      intro a b ha
      exact hag a b (fun hEq => absurd (hEq ▸ ha) (not_lt.mpr hge))
    have h01 : server2 0 1000 = server 0 1000 := hagT 0 1000 hT
    have hloop := searchLoop_agree server server2 tf T m hagT fuel s
      (server 0 1000) (server2 0 1000) (fun _ => h01)
    rw [h01] at hloop
    simp only [search, h01, h1, h2, h3]
    rw [hloop]

/-- Witness for `C10_amended` at the two-page fixture. -/
theorem C10_witness :
    ∃ k : Nat, 1 ≤ k
      ∧ (search (pageServer 2 1) (fun i => i) 2).reqs = (0, 1000) :: pageReqs 0 1 k
      ∧ (∀ (server2 : Int → Int → PageResponse) (tf2 : Int → Int),
          (server2 0 1000).total = some 2 → (server2 0 1000).startAt = some 0 →
          (server2 0 1000).maxResults = some 1 →
          (search server2 tf2 2).reqs = (search (pageServer 2 1) (fun i => i) 2).reqs)
      ∧ (∀ server2 : Int → Int → PageResponse,
          (∀ a b : Int, a ≠ 0 + (1 + 1) * (k : Int) → server2 a b = pageServer 2 1 a b) →
          search server2 (fun i => i) 2 = search (pageServer 2 1) (fun i => i) 2) :=
  C10_amended (pageServer 2 1) (fun i => i) 2 0 1 2 rfl rfl rfl
    (by decide) (by decide) (by decide) (by decide)

/-!
Login / session management (`management_tools/client/jira.py` lines 83-117).
-/

/-- One login response body: `none` models a JSON body with no `'session'`
key; `some (n?, v?)` models a body whose `'session'` value has optional
`'name'` / `'value'` entries (a missing one raises `KeyError`). -/
abbrev LoginResponses := Nat → Option (Option String × Option String)

/-- Result of `Client.login()` on a fresh client: either a session pair with
the number of login POST requests made, or the `LoginException('Cannot
login')` raised after the retry budget, again with the request count. -/
inductive LoginResult where
  | ok : String → String → Nat → LoginResult
  | cannotLogin : Nat → LoginResult
deriving DecidableEq

/-- `Client.MAX_TRIES`. -/
def MAX_TRIES : Nat := 5

/-- Extract the session pair exactly as `login` reads it:
`response['session']['name'], response['session']['value']`; any failure on
this path — no `'session'` key (the `raise LoginException('Wrong username or
password')`) or a `KeyError` on `'name'`/`'value'` — lands in the retry
handler.  Modelled from the spec: the class `LoginException` lives in
`exceptions.py`, which is not under `src/`; the spec states that a
structurally rejected response (no session token) "is still routed through
the same retry path", i.e. the `except KeyError` handler catches the raised
`LoginException` as well, so both failure shapes are retried alike. -/
def sessionOf : Option (Option String × Option String) → Option (String × String)
  | some (some n, some v) => some (n, v)
  | _ => none

/-- The `while not session` retry loop of `login` (lines 92-107).
`remaining` is `MAX_TRIES - tries` (the number of attempts still allowed:
the code raises `LoginException('Cannot login')` when `tries`, incremented
after a failed attempt, reaches `MAX_TRIES`); `k` is the number of requests
already issued, so `responses k` is the body of attempt `k + 1`. -/
def loginLoop (responses : LoginResponses) : Nat → Nat → LoginResult
  | 0, k =>
    match sessionOf (responses k) with
    | some (n, v) => .ok n v (k + 1)
    | none => .cannotLogin (k + 1)
  | 1, k =>
    match sessionOf (responses k) with
    | some (n, v) => .ok n v (k + 1)
    | none => .cannotLogin (k + 1)
  | r + 2, k =>
    match sessionOf (responses k) with
    | some (n, v) => .ok n v (k + 1)
    | none => loginLoop responses (r + 1) (k + 1)

/-- `Client.login()` on a client whose `token` is falsy: run the retry loop
with the full budget. -/
def login (responses : LoginResponses) : LoginResult := loginLoop responses MAX_TRIES 0

/-- Number of login POST requests a `login()` run issued. -/
def loginRequests : LoginResult → Nat
  | .ok _ _ k => k
  | .cannotLogin k => k

theorem loginLoop_all_fail (responses : LoginResponses) :
    ∀ (r k : Nat), 1 ≤ r →
      (∀ j : Nat, j < r → sessionOf (responses (k + j)) = none) →
      loginLoop responses r k = .cannotLogin (k + r)
  | 0, k, hr, hall => absurd hr (by omega)
  | 1, k, hr, hall => by
    have h0 := hall 0 (by omega)
    simp only [Nat.add_zero] at h0
    simp [loginLoop, h0]
  | r + 2, k, hr, hall => by
    have h0 := hall 0 (by omega)
    simp only [Nat.add_zero] at h0
    have ih := loginLoop_all_fail responses (r + 1) (k + 1) (by omega)
      (fun j hj => by
        have := hall (j + 1) (by omega)
        simpa [Nat.add_assoc, Nat.add_comm 1 j] using this)
    simp [loginLoop, h0, ih]
    omega

theorem loginLoop_success (responses : LoginResponses) :
    ∀ (N r k : Nat) (n v : String), N < r →
      (∀ j : Nat, j < N → sessionOf (responses (k + j)) = none) →
      responses (k + N) = some (some n, some v) →
      loginLoop responses r k = .ok n v (k + N + 1)
  | 0, r, k, n, v, hNr, hall, hN => by
    simp only [Nat.add_zero] at hN
    match r with
    | 0 => simp [loginLoop, hN, sessionOf]
    | 1 => simp [loginLoop, hN, sessionOf]
    | r' + 2 => simp [loginLoop, hN, sessionOf]
  | N + 1, r, k, n, v, hNr, hall, hN => by
    have h0 := hall 0 (by omega)
    simp only [Nat.add_zero] at h0
    match r, hNr with
    | r' + 2, _ =>
      have ih := loginLoop_success responses N (r' + 1) (k + 1) n v (by omega)
        (fun j hj => by
          have := hall (j + 1) (by omega)
          simpa [Nat.add_assoc, Nat.add_comm 1 j] using this)
        (by simpa [Nat.add_assoc, Nat.add_comm 1 N] using hN)
      simp [loginLoop, h0, ih]
      omega

/-- Every `login()` run issues at least one network request. -/
theorem loginLoop_requests_pos (responses : LoginResponses) :
    ∀ (r k : Nat), k + 1 ≤ loginRequests (loginLoop responses r k)
  | r, k => by
    rcases hs : sessionOf (responses k) with _ | ⟨n, v⟩
    · match r with
      | 0 => simp [loginLoop, hs, loginRequests]
      | 1 => simp [loginLoop, hs, loginRequests]
      | r' + 2 =>
        have ih := loginLoop_requests_pos responses (r' + 1) (k + 1)
        simp only [loginLoop, hs]
        omega
    · match r with
      | 0 => simp [loginLoop, hs, loginRequests]
      | 1 => simp [loginLoop, hs, loginRequests]
      | r' + 2 => simp [loginLoop, hs, loginRequests]

/-- Claim C2: if the first `MAX_TRIES` responses all lack a valid session
token — including bodies with no `'session'` key at all, which are routed
through the same retry path — `login()` makes exactly `MAX_TRIES = 5`
requests and then fails with `LoginException('Cannot login')`; and if a
valid session arrives on attempt `N + 1 ≤ MAX_TRIES` after such failures,
`login()` succeeds at that attempt. -/
theorem C2_theorem (responses : LoginResponses) :
    ((∀ k : Nat, k < MAX_TRIES → sessionOf (responses k) = none) →
      login responses = .cannotLogin MAX_TRIES)
    ∧ (∀ (N : Nat) (n v : String), N < MAX_TRIES →
        (∀ k : Nat, k < N → sessionOf (responses k) = none) →
        responses N = some (some n, some v) →
        login responses = .ok n v (N + 1)) := by
  constructor
  · intro h
    have := loginLoop_all_fail responses MAX_TRIES 0 (by decide)
      (fun j hj => by simpa using h j hj)
    simpa [login] using this
  · intro N n v hN hall hok
    have := loginLoop_success responses N MAX_TRIES 0 n v hN
      (fun j hj => by simpa using hall j hj) (by simpa using hok)
    simpa [login] using this

/-- Witness for `C2_theorem`: a server that always answers without a session
token exhausts all 5 attempts; one that answers validly on the third attempt
succeeds there with 3 requests made. -/
theorem C2_witness :
    login (fun _ => none) = .cannotLogin MAX_TRIES
    ∧ login (fun k => if k < 2 then some (none, none) else some (some "n", some "v"))
        = .ok "n" "v" 3 :=
  ⟨(C2_theorem (fun _ => none)).1 (by decide),
   (C2_theorem (fun k => if k < 2 then some (none, none) else some (some "n", some "v"))).2
      2 "n" "v" (by decide) (by decide) (by decide)⟩

/-!
Client token state (`management_tools/client/jira.py` lines 42, 83-117).
-/

/-- The only piece of per-instance mutable state the claims concern:
`self.token`, set to `None` in `__init__` (line 42). -/
structure ClientState where
  token : Option (String × String)
deriving DecidableEq

/-- `Client.__init__`: `self.token = None`. -/
def initClient : ClientState := ⟨none⟩

/-- `login()` as a state transition: when `not self.token` it runs the retry
loop (issuing its requests); the method never assigns `self.token`, so the
state is returned unchanged in both branches.  When a token were present it
would return `None` immediately with no request.  Returns the new state and
the number of requests issued. -/
def loginOp (responses : LoginResponses) (st : ClientState) : ClientState × Nat :=
  match st.token with
  | none => (st, loginRequests (login responses))
  | some _ => (st, 0)

/-- `logout()` as a state transition: only when `self.token` is truthy does
it issue the DELETE request and clear the token. -/
def logoutOp (st : ClientState) : ClientState × Nat :=
  match st.token with
  | some _ => ({ st with token := none }, 1)
  | none => (st, 0)

/-- The operations a caller can perform on a `Client` instance.  `request`,
`search` and `worklogs` never read or write `self.token`. -/
inductive ClientOp where
  | loginCall (responses : LoginResponses)
  | logoutCall
  | requestCall
  | searchCall
  | worklogsCall

/-- Effect of one operation on the client state. -/
def applyOp (st : ClientState) : ClientOp → ClientState
  | .loginCall rs => (loginOp rs st).1
  | .logoutCall => (logoutOp st).1
  | .requestCall => st
  | .searchCall => st
  | .worklogsCall => st

/-- The state reached from a fresh client after a sequence of operations. -/
def runOps (ops : List ClientOp) : ClientState := ops.foldl applyOp initClient

theorem token_none_invariant :
    ∀ (ops : List ClientOp) (st : ClientState), st.token = none →
      (ops.foldl applyOp st).token = none
  | [], st, h => h
  | op :: ops, st, h => by
    have hstep : (applyOp st op).token = none := by
      cases op <;> simp [applyOp, loginOp, logoutOp, h]
    simpa [List.foldl_cons] using token_none_invariant ops (applyOp st op) hstep

/-- Claim C4: in every reachable state of a `Client` instance, `token` is
`None` — `__init__` sets it to `None` and no operation assigns a non-`None`
value — so `login()`'s `if not self.token` guard always passes (every
`login()` call performs at least one network request) and `logout()`
(including the one `__aexit__` runs at scope exit) never issues its DELETE
request. -/
theorem C4_theorem :
    ∀ (ops : List ClientOp) (responses : LoginResponses),
      (runOps ops).token = none
      ∧ (loginOp responses (runOps ops)).2 = loginRequests (login responses)
      ∧ 1 ≤ (loginOp responses (runOps ops)).2
      ∧ (logoutOp (runOps ops)).2 = 0 := by
  intro ops responses
  have htok : (runOps ops).token = none := token_none_invariant ops initClient rfl
  have hreq : 1 ≤ loginRequests (login responses) :=
    loginLoop_requests_pos responses MAX_TRIES 0
  refine ⟨htok, ?_, ?_, ?_⟩ <;> simp [loginOp, logoutOp, htok, hreq]

/-- Claim C3: the code never caches the token.  With a server that returns a
valid session every time, the first `login()` issues one request, leaves
`token = None`, and a second `login()` without an intervening `logout()`
issues one more network request — two in total, not one. -/
theorem C3_theorem :
    (loginOp (fun _ => some (some "tok", some "secret")) initClient).2 = 1
    ∧ ((loginOp (fun _ => some (some "tok", some "secret")) initClient).1).token = none
    ∧ (loginOp (fun _ => some (some "tok", some "secret"))
        ((loginOp (fun _ => some (some "tok", some "secret")) initClient).1)).2 = 1 := by
  refine ⟨rfl, rfl, rfl⟩

/-!
The generic `request` primitive (`management_tools/client/jira.py` lines
52-81; the synchronous `_request` of `connectors/jira.py` lines 53-73 is
identical for the behaviour modelled here).
-/

/-- A Python exception escaping `request`. -/
inductive PyError where
  | attributeError
  | jsonDecodeError
deriving DecidableEq

/-- The response object a supported verb of the HTTP session returns:
`contentNonempty` is the truthiness of `response._content`, and `jsonBody`
is `some` parsed body or `none` when `response.json()` would raise. -/
structure HttpResponse where
  contentNonempty : Bool
  jsonBody : Option String
deriving DecidableEq

/-- `request(resource, method, ...)` restricted to what the claim concerns:
`getattr(self._session, method, lambda *args, **kwargs: None)` — modelled by
`session method`, which is `none` exactly when `method` is not an attribute
of the session, making the fallback lambda return `None` — followed by
`response.status_code` (in the logging call) and
`response.json() if response._content else None`.  When the fallback fired,
`response` is `None` and the very first attribute access raises
`AttributeError`. -/
def requestOutcome (session : String → Option HttpResponse) (method : String) :
    Except PyError (Option String) :=
  match session method with
  | none => .error .attributeError
  | some resp =>
    if resp.contentNonempty then
      match resp.jsonBody with
      | some j => .ok (some j)
      | none => .error .jsonDecodeError
    else .ok none

/-- Claim C5: an unsupported verb does NOT degrade to a no-op returning
null.  The fallback lambda does return `None` instead of a response, but the
code then unconditionally evaluates `response.status_code` /
`response._content`, so the call raises `AttributeError` — evaluated here at
the failing input `method = "fetch"` on a session supporting only the real
verbs, and shown in general. -/
theorem C5_theorem :
    requestOutcome (fun _ => none) "fetch" = .error .attributeError
    ∧ (∀ (session : String → Option HttpResponse) (method : String),
        session method = none →
        requestOutcome session method = .error .attributeError
        ∧ requestOutcome session method ≠ .ok none) := by
  refine ⟨rfl, ?_⟩
  intro session method h
  simp [requestOutcome, h]

/-!
Base-URL normalization (`Client.__init__`, `management_tools/client/jira.py`
lines 43-50, identical in `JiraConnector.__init__`, `connectors/jira.py`
lines 42-49) and the join in `request` (line 69).  The `urllib.parse`
functions the code calls are modelled below for the component set the client
uses (scheme, netloc, path — the client passes empty params/query/fragment to
`urlunparse` and its fixed resources contain no dot segments, so query and
fragment are left inside `path` and dot-segment normalization is elided).
-/

/-- Characters `urllib.parse` allows in a scheme. -/
def isSchemeChar (c : Char) : Bool :=
  c.isAlpha || c.isDigit || c = '+' || c = '-' || c = '.'

/-- Split a character list at its first `':'`, if any. -/
def findColon : List Char → Option (List Char × List Char)
  | [] => none
  | c :: cs =>
    if c = ':' then some ([], cs)
    else
      match findColon cs with
      | some (pre, post) => some (c :: pre, post)
      | none => none

/-- The scheme split of `urllib.parse.urlsplit`: the part before the first
`':'` is a scheme when nonempty and made of scheme characters; otherwise the
whole input is left in place.  (Lower-casing of the scheme is omitted: the
client's fixed strings are lower-case already.) -/
def splitScheme (l : List Char) : List Char × List Char :=
  match findColon l with
  | some (pre, post) =>
    if pre ≠ [] ∧ pre.all isSchemeChar then (pre, post) else ([], l)
  | none => ([], l)

/-- Characters that end the network-location component. -/
def isNetlocEnd (c : Char) : Bool := c = '/' || c = '?' || c = '#'

/-- The netloc split of `urllib.parse.urlsplit`: a netloc is present only
after a leading `"//"` and runs to the next `'/'`, `'?'` or `'#'`. -/
def splitNetloc (l : List Char) : List Char × List Char :=
  if l.take 2 = ['/', '/'] then
    ((l.drop 2).takeWhile (fun c => !isNetlocEnd c),
     (l.drop 2).dropWhile (fun c => !isNetlocEnd c))
  else ([], l)

/-- The (scheme, netloc, path) components of a parsed URL. -/
structure UrlParts where
  scheme : String
  netloc : String
  path   : String
deriving DecidableEq

/-- Model of `urllib.parse.urlparse` on the components this client reads. -/
def urlparse (url : String) : UrlParts :=
  ⟨(splitScheme url.data).1.asString,
   (splitNetloc (splitScheme url.data).2).1.asString,
   (splitNetloc (splitScheme url.data).2).2.asString⟩

/-- Model of `urllib.parse.urlunparse` with empty params/query/fragment:
`"//" ++ netloc` is emitted when a netloc is present (or the path itself
starts with `"//"`), a `'/'` is inserted before a relative path in that
case, and `scheme ++ ":"` is prefixed when a scheme is present.  (For an
empty netloc with a nonempty scheme the exact output varies across Python
versions; every property below assumes a nonempty netloc, where all
versions agree with this model.) -/
def urlunparse (p : UrlParts) : String :=
  let core :=
    if p.netloc ≠ "" ∨ p.path.data.take 2 = ['/', '/'] then
      "//" ++ p.netloc ++
        (if p.path ≠ "" ∧ p.path.data.take 1 ≠ ['/'] then "/" ++ p.path else p.path)
    else p.path
  if p.scheme ≠ "" then p.scheme ++ ":" ++ core else core

/-- `urllib.parse.uses_relative`: the schemes for which `urljoin` performs
relative resolution (coincides with `uses_netloc` on the schemes the client
can encounter). -/
def usesRelative : List String :=
  ["", "ftp", "http", "gopher", "nntp", "imap", "wais", "file", "https",
   "shttp", "mms", "prospero", "rtsp", "rtspu", "sftp", "svn", "svn+ssh",
   "ws", "wss"]

/-- Everything of a path up to and including its last `'/'`: the base
directory against which a relative reference is merged. -/
def dirname (p : String) : String :=
  ((p.data.reverse.dropWhile (fun c => c ≠ '/')).reverse).asString

/-- Model of `urllib.parse.urljoin` for the shapes this client produces: an
absolute-path second argument (`'/rest/'`) or a relative resource without
dot segments (the fixed `Resource` paths contain none). -/
def urljoin (base url : String) : String :=
  if base = "" then url
  else if url = "" then base
  else
    let b := urlparse base
    let u := urlparse url
    let uscheme := if u.scheme = "" then b.scheme else u.scheme
    if uscheme = b.scheme ∧ usesRelative.contains uscheme = true then
      if u.netloc ≠ "" then urlunparse ⟨uscheme, u.netloc, u.path⟩
      else if u.path = "" then urlunparse ⟨uscheme, b.netloc, b.path⟩
      else if u.path.data.take 1 = ['/'] then urlunparse ⟨uscheme, b.netloc, u.path⟩
      else urlunparse ⟨uscheme, b.netloc, dirname b.path ++ u.path⟩
    else url

/-- `Client.__init__` lines 43-48: parse the supplied URL, force the scheme
to `'https'`, keep its netloc, join its path with `'/rest/'`, and reassemble
with empty params/query/fragment. -/
def clientBaseUrl (url : String) : String :=
  urlunparse ⟨"https", (urlparse url).netloc, urljoin (urlparse url).path "/rest/"⟩

/-- `request` line 69: `urljoin(base=self._base_url, url=resource)`. -/
def requestUrl (url resource : String) : String :=
  urljoin (clientBaseUrl url) resource

theorem all_takeWhile (p : Char → Bool) :
    ∀ l : List Char, (l.takeWhile p).all p = true
  | [] => rfl
  | c :: t => by
    by_cases h : p c <;> simp [List.takeWhile_cons, h, all_takeWhile p t]

theorem head_dropWhile (p : Char → Bool) :
    ∀ (l : List Char) (c : Char), (l.dropWhile p).head? = some c → p c = false
  | [], c, h => by simp at h
  | a :: t, c, h => by
    by_cases ha : p a
    · exact head_dropWhile p t c (by simpa [List.dropWhile_cons, ha] using h)
    · simp [List.dropWhile_cons, ha] at h
      simp [← h, ha]

theorem takeWhile_append_all (p : Char → Bool) :
    ∀ (l₁ l₂ : List Char), l₁.all p = true →
      (l₁ ++ l₂).takeWhile p = l₁ ++ l₂.takeWhile p
  | [], l₂, _ => rfl
  | c :: t, l₂, h => by
    simp only [List.all_cons, Bool.and_eq_true] at h
    simp [List.takeWhile_cons, h.1, takeWhile_append_all p t l₂ h.2]

theorem dropWhile_append_all (p : Char → Bool) :
    ∀ (l₁ l₂ : List Char), l₁.all p = true →
      (l₁ ++ l₂).dropWhile p = l₂.dropWhile p
  | [], l₂, _ => rfl
  | c :: t, l₂, h => by
    simp only [List.all_cons, Bool.and_eq_true] at h
    simp [List.dropWhile_cons, h.1, dropWhile_append_all p t l₂ h.2]

theorem findColon_append :
    ∀ (l₁ l₂ : List Char), (∀ c ∈ l₁, c ≠ ':') →
      findColon (l₁ ++ ':' :: l₂) = some (l₁, l₂)
  | [], l₂, _ => by simp [findColon]
  | c :: t, l₂, h => by
    have hc : ¬ c = ':' := h c (by simp)
    simp [findColon, hc, findColon_append t l₂ (fun d hd => h d (by simp [hd]))]

theorem findColon_none :
    ∀ l : List Char, (∀ c ∈ l, c ≠ ':') → findColon l = none
  | [], _ => rfl
  | c :: t, h => by
    have hc : ¬ c = ':' := h c (by simp)
    simp [findColon, hc, findColon_none t (fun d hd => h d (by simp [hd]))]

theorem data_asString (s : String) : s.data.asString = s := rfl

theorem asString_data (l : List Char) : (l.asString).data = l := rfl

theorem asString_nil : ([] : List Char).asString = "" := rfl

theorem string_eq_of_data {a b : String} (h : a.data = b.data) : a = b := by
  cases a; cases b; exact congrArg String.mk h

theorem ne_empty_of_data {a : String} {c : Char} {t : List Char}
    (h : a.data = c :: t) : a ≠ "" := by
  intro he
  rw [he] at h
  simp at h

theorem splitScheme_not_scheme (c : Char) (t : List Char)
    (h : isSchemeChar c = false) : splitScheme (c :: t) = ([], c :: t) := by
  by_cases hc : c = ':'
  · simp [splitScheme, findColon, hc]
  · rcases hf : findColon t with _ | ⟨pre, post⟩
    · simp [splitScheme, findColon, hc, hf]
    · simp [splitScheme, findColon, hc, hf, h]

theorem splitScheme_valid {l pre post : List Char}
    (hfc : findColon l = some (pre, post))
    (hval : pre ≠ [] ∧ pre.all isSchemeChar = true) :
    splitScheme l = (pre, post) := by
  unfold splitScheme
  rw [hfc]
  exact if_pos hval

theorem splitNetloc_cons_slash (l : List Char) :
    splitNetloc ('/' :: '/' :: l)
      = (l.takeWhile (fun c => !isNetlocEnd c),
         l.dropWhile (fun c => !isNetlocEnd c)) := by
  unfold splitNetloc
  exact if_pos rfl

theorem take_two_slash {L : List Char} (h : L.take 2 = ['/', '/']) :
    L.take 1 = ['/'] := by
  rcases L with _ | ⟨a, l⟩
  · simp at h
  · rcases l with _ | ⟨b, l2⟩
    · simp at h
    · simp at h ⊢
      exact h.1

/-- Re-parsing the normalized base URL recovers its three components, for
any netloc free of netloc-ending characters. -/
theorem urlparse_https (n : String)
    (hall : n.data.all (fun c => !isNetlocEnd c) = true) :
    urlparse ("https://" ++ n ++ "/rest/") = ⟨"https", n, "/rest/"⟩ := by
  have hfc := findColon_append "https".data
    ('/' :: '/' :: (n.data ++ "/rest/".data)) (by decide)
  have hss : splitScheme ("https://" ++ n ++ "/rest/").data
      = ("https".data, '/' :: '/' :: (n.data ++ "/rest/".data)) := by
    rw [show ("https://" ++ n ++ "/rest/").data
        = "https".data ++ ':' :: '/' :: '/' :: (n.data ++ "/rest/".data) from rfl]
    exact splitScheme_valid hfc (by decide)
  have htw : (n.data ++ "/rest/".data).takeWhile (fun c => !isNetlocEnd c)
      = n.data := by
    rw [takeWhile_append_all _ _ _ hall,
      show ("/rest/".data).takeWhile (fun c => !isNetlocEnd c) = [] from by decide,
      List.append_nil]
  have hdw : (n.data ++ "/rest/".data).dropWhile (fun c => !isNetlocEnd c)
      = "/rest/".data := by
    rw [dropWhile_append_all _ _ _ hall]
    decide
  have hsn : splitNetloc ('/' :: '/' :: (n.data ++ "/rest/".data))
      = (n.data, "/rest/".data) := by
    rw [splitNetloc_cons_slash, htw, hdw]
  unfold urlparse
  rw [hss, hsn]
  rfl

/-- A parsed URL with a nonempty netloc: the netloc contains no
netloc-ending character, and the path is empty or starts with one. -/
theorem urlparse_netloc_facts (url : String)
    (hn : (urlparse url).netloc ≠ "") :
    (urlparse url).netloc.data.all (fun c => !isNetlocEnd c) = true
    ∧ ((urlparse url).path = ""
        ∨ ∃ c t, (urlparse url).path.data = c :: t ∧ isNetlocEnd c = true) := by
  by_cases hsp : (splitScheme url.data).2.take 2 = ['/', '/']
  · constructor
    · simp only [urlparse, splitNetloc, hsp, if_true, asString_data, if_pos]
      exact all_takeWhile _ _
    · rcases hd : ((splitScheme url.data).2.drop 2).dropWhile
        (fun c => !isNetlocEnd c) with _ | ⟨c, t⟩
      · left
        simp [urlparse, splitNetloc, hsp, hd, asString_nil]
      · right
        refine ⟨c, t, ?_, ?_⟩
        · simp [urlparse, splitNetloc, hsp, hd, asString_data]
        · have := head_dropWhile (fun c => !isNetlocEnd c)
            ((splitScheme url.data).2.drop 2) c (by rw [hd]; rfl)
          simpa using this
  · exfalso
    apply hn
    simp [urlparse, splitNetloc, hsp, asString_nil]

/-- Joining the parsed path of a netloc-bearing URL with the absolute
reference `'/rest/'` discards that path entirely — provided the path does
not itself begin with `"//"` (which `urljoin` would re-read as a netloc). -/
theorem urljoin_abs_rest (p : String)
    (hp : p.data.take 2 ≠ ['/', '/'])
    (hhead : p = "" ∨ ∃ c t, p.data = c :: t ∧ isNetlocEnd c = true) :
    urljoin p "/rest/" = "/rest/" := by
  rcases hhead with h | ⟨c, t, hct, hend⟩
  · subst h; rfl
  · have hpne : p ≠ "" := ne_empty_of_data hct
    have hsch : isSchemeChar c = false := by
      have h3 := hend
      simp only [isNetlocEnd, Bool.or_eq_true, decide_eq_true_eq] at h3
      rcases h3 with (h | h) | h <;> subst h <;> decide
    have hssp : splitScheme p.data = ([], p.data) := by
      rw [hct]
      exact splitScheme_not_scheme c t hsch
    have hsnp : splitNetloc p.data = ([], p.data) := by
      simp [splitNetloc, hp]
    have hbp : urlparse p = ⟨"", "", p⟩ := by
      simp [urlparse, hssp, hsnp, data_asString, asString_nil]
    have hu : urlparse "/rest/" = ⟨"", "", "/rest/"⟩ := by decide
    unfold urljoin
    rw [if_neg hpne, if_neg (show ¬ ("/rest/" : String) = "" by decide)]
    simp only [hbp, hu]
    simp +decide

/-- `urlunparse` on an `https` triple with nonempty netloc and an absolute
path is plain concatenation. -/
theorem urlunparse_https (n path2 : String) (hnet : n ≠ "")
    (hpath : path2.data.take 1 = ['/']) :
    urlunparse ⟨"https", n, path2⟩ = "https://" ++ n ++ path2 := by
  unfold urlunparse
  simp only
  rw [if_pos (Or.inl hnet : n ≠ "" ∨ path2.data.take 2 = ['/', '/']),
    if_neg (show ¬ (path2 ≠ "" ∧ path2.data.take 1 ≠ ['/']) by simp [hpath]),
    if_pos (show ("https" : String) ≠ "" by decide)]
  rfl

/-- Joining a plain relative resource (nonempty, not starting with `'/'`,
no `':'`) against the normalized base appends it after `'/rest/'`. -/
theorem urljoin_base_rel (n res : String) (hnet : n ≠ "")
    (hall : n.data.all (fun c => !isNetlocEnd c) = true)
    (hres1 : res ≠ "") (hres2 : res.data.take 1 ≠ ['/'])
    (hres3 : ∀ c ∈ res.data, c ≠ ':') :
    urljoin ("https://" ++ n ++ "/rest/") res
      = "https://" ++ n ++ ("/rest/" ++ res) := by
  have hbase : ("https://" ++ n ++ "/rest/") ≠ "" := by
    intro h
    have h2 := congrArg String.data h
    rw [show ("https://" ++ n ++ "/rest/").data
        = "https".data ++ ':' :: '/' :: '/' :: (n.data ++ "/rest/".data) from rfl] at h2
    simp at h2
  have hb := urlparse_https n hall
  have htk2 : res.data.take 2 ≠ ['/', '/'] := fun h => hres2 (take_two_slash h)
  have hu : urlparse res = ⟨"", "", res⟩ := by
    have hss : splitScheme res.data = ([], res.data) := by
      unfold splitScheme
      rw [findColon_none _ hres3]
    have hsn : splitNetloc res.data = ([], res.data) := by
      unfold splitNetloc
      rw [if_neg htk2]
    unfold urlparse
    rw [hss, hsn]
    rfl
  have hdir : dirname "/rest/" = "/rest/" := by decide
  have hfinal := urlunparse_https n ("/rest/" ++ res) hnet
    (show ("/rest/" ++ res).data.take 1 = ['/'] from rfl)
  unfold urljoin
  rw [if_neg hbase, if_neg hres1]
  simp only [hb, hu]
  simp +decide
  rw [if_neg hres1, if_neg hres2, hdir, hfinal]

/-- Claim C8, counterexample: for the accepted base URL `"http://h//x"`
(whose path `"//x"` begins with `"//"`), the stored base URL is
`"https://h//x/rest/"` — the caller-supplied path survives in front of
`/rest/` and the stored path component is not exactly `/rest/`. -/
theorem C8_counterexample :
    clientBaseUrl "http://h//x" = "https://h//x/rest/"
    ∧ clientBaseUrl "http://h//x" ≠ "https://h/rest/"
    ∧ (urlparse (clientBaseUrl "http://h//x")).path ≠ "/rest/" := by
  decide

/-- Claim C8, amended: for every base URL that parses with a nonempty
network location and whose parsed path does not begin with `"//"`, the
stored normalized base URL is exactly `https://<netloc>/rest/` — scheme
forced to https, netloc from the supplied URL, path the fixed REST root
with any caller-supplied path discarded — and every request for a plain
relative resource joins it immediately after that base. -/
theorem C8_amended (url res : String)
    (hn : (urlparse url).netloc ≠ "")
    (hp : (urlparse url).path.data.take 2 ≠ ['/', '/'])
    (hres1 : res ≠ "") (hres2 : res.data.take 1 ≠ ['/'])
    (hres3 : ∀ c ∈ res.data, c ≠ ':') :
    clientBaseUrl url = "https://" ++ (urlparse url).netloc ++ "/rest/"
    ∧ urlparse (clientBaseUrl url)
        = ⟨"https", (urlparse url).netloc, "/rest/"⟩
    ∧ requestUrl url res
        = "https://" ++ (urlparse url).netloc ++ ("/rest/" ++ res) := by
  obtain ⟨hall, hpath⟩ := urlparse_netloc_facts url hn
  have hjoin : urljoin (urlparse url).path "/rest/" = "/rest/" :=
    urljoin_abs_rest _ hp hpath
  have hcb : clientBaseUrl url
      = "https://" ++ (urlparse url).netloc ++ "/rest/" := by
    unfold clientBaseUrl
    rw [hjoin]
    exact urlunparse_https _ _ hn (by rfl)
  refine ⟨hcb, ?_, ?_⟩
  · rw [hcb]
    exact urlparse_https _ hall
  · unfold requestUrl
    rw [hcb]
    exact urljoin_base_rel _ _ hn hall hres1 hres2 hres3

/-- Witness for `C8_amended` at a realistic base URL and the search
resource. -/
theorem C8_witness :
    clientBaseUrl "http://jira.example.com/jira/sub" = "https://jira.example.com/rest/"
    ∧ urlparse (clientBaseUrl "http://jira.example.com/jira/sub")
        = ⟨"https", "jira.example.com", "/rest/"⟩
    ∧ requestUrl "http://jira.example.com/jira/sub" "api/2/search"
        = "https://jira.example.com/rest/api/2/search" := by
  have h := C8_amended "http://jira.example.com/jira/sub" "api/2/search"
    (by decide) (by decide) (by decide) (by decide) (by decide)
  exact ⟨h.1.trans (by decide), h.2.1.trans (by decide), h.2.2.trans (by decide)⟩

end ManagementTools
